import Mathlib

/-!
Verification development for the phosphor-icons server (Rust sources under
`src/`).  The definitions below are a shallow embedding of the query filter
compiler (`src/db.rs`), the external row decoder and sync loop
(`src/table.rs`), the domain enums (`src/icons.rs`) and the svg storage
conversion (`src/svgs.rs`).  Strings are modelled through their character
lists (Rust `str` operations are re-implemented on `List Char`), `f64`
version numbers are modelled as exact rationals (the claims under study never
exercise rounding, infinities or NaN), and database conditions are modelled
as boolean predicates over the stored row type.
-/

namespace PhosphorServer

/-- Matcher for SQL `LIKE` patterns as used by Postgres: `%` matches any
(possibly empty) run of characters, `_` matches exactly one character, and
every other pattern character matches itself.  `Db::build_condition_from_params`
(src/db.rs line 47) builds the pattern `%trimmed%` for wildcard name filters. -/
def likeMatch (p s : List Char) : Bool :=
  match p, s with
  | [], s => s.isEmpty
  | c :: ps, s =>
    if c = '%' then
      likeMatch ps s ||
        (match s with
         | [] => false
         | _ :: s2 => likeMatch (c :: ps) s2)
    else
      match s with
      | [] => false
      | c2 :: s2 => if c = '_' then likeMatch ps s2 else c == c2 && likeMatch ps s2
termination_by (p.length, s.length)

/-- Model of Rust `name.starts_with('*')` (src/db.rs line 42). -/
def starts_with_star (s : String) : Bool :=
  match s.toList with
  | [] => false
  | c :: _ => c == '*'

/-- Model of Rust `name.ends_with('*')` (src/db.rs line 42). -/
def ends_with_star (s : String) : Bool :=
  match s.toList.getLast? with
  | some c => c == '*'
  | none => false

/-- Model of Rust `name.trim_matches('*')` (src/db.rs line 43): removes all
leading and trailing `*` characters.  The result is kept as a character
list because all later uses are character-level. -/
def trim_matches_star (s : String) : List Char :=
  ((s.toList.dropWhile (· == '*')).reverse.dropWhile (· == '*')).reverse

/-- Model of Rust `str::trim` restricted to ASCII whitespace (the inputs of
interest contain no exotic Unicode whitespace). -/
def trimChars (cs : List Char) : List Char :=
  ((cs.dropWhile Char.isWhitespace).reverse.dropWhile Char.isWhitespace).reverse

/-- Model of Rust `s.split_once(sep)` on character lists: splits at the first
occurrence of `sep`, returning the parts before and after it, or `none` when
`sep` does not occur.  Used by `FromStr for IconReleaseQuery`
(src/db.rs line 444). -/
def splitOnceList (sep : List Char) : List Char → Option (List Char × List Char)
  | [] => none
  | c :: cs =>
    if sep.isPrefixOf (c :: cs) then
      some ([], (c :: cs).drop sep.length)
    else
      match splitOnceList sep cs with
      | some (a, b) => some (c :: a, b)
      | none => none

/-- Model of Rust `v.split(", ")` (src/table.rs line 207): scans the input
left to right and cuts at every occurrence of the two-character separator
`", "`.  `acc` holds the reversed current segment. -/
def split_comma_space (acc : List Char) : List Char → List (List Char)
  | ',' :: ' ' :: rest => acc.reverse :: split_comma_space [] rest
  | c :: rest => split_comma_space (c :: acc) rest
  | [] => [acc.reverse]

/-- Numeric value of a digit list, most significant digit first. -/
def digitsToNat (cs : List Char) : Nat :=
  cs.foldl (fun a c => a * 10 + (c.toNat - 48)) 0

/-- Model of the finite-decimal fragment of Rust `str::parse::<f64>` applied
to an unsigned token: `digits`, `digits.`, `digits.digits` or `.digits`.
The exponent, `inf` and `nan` forms accepted by Rust are outside the version
grammar exercised by the server and are not modelled. -/
def parseUnsignedDecimal (cs : List Char) : Option Rat :=
  match cs.splitOn '.' with
  | [intPart] =>
    if !intPart.isEmpty && intPart.all Char.isDigit then
      some (digitsToNat intPart : Rat)
    else none
  | [intPart, fracPart] =>
    if (!intPart.isEmpty || !fracPart.isEmpty)
        && intPart.all Char.isDigit && fracPart.all Char.isDigit then
      some ((digitsToNat intPart : Rat)
        + (digitsToNat fracPart : Rat) / 10 ^ fracPart.length)
    else none
  | _ => none

/-- Model of Rust `s.parse::<f64>().ok()` on the finite-decimal fragment:
an optional sign followed by an unsigned decimal token. -/
def parseF64Fragment (s : String) : Option Rat :=
  match s.toList with
  | '+' :: rest => parseUnsignedDecimal rest
  | '-' :: rest => (parseUnsignedDecimal rest).map Neg.neg
  | cs => parseUnsignedDecimal cs

/-- Digits of an unsigned `i32` token, with the `i32` overflow bound applied
by the caller. -/
def parse_i32_digits (ds : List Char) : Option Nat :=
  if !ds.isEmpty && ds.all Char.isDigit then some (digitsToNat ds) else none

/-- Model of Rust `s.parse::<i32>().ok()`: optional sign, decimal digits,
`none` on overflow. -/
def parse_i32 (s : String) : Option Int :=
  match s.toList with
  | '-' :: rest =>
    (parse_i32_digits rest).bind fun n =>
      if n ≤ 2147483648 then some (-(n : Int)) else none
  | '+' :: rest =>
    (parse_i32_digits rest).bind fun n =>
      if n ≤ 2147483647 then some (n : Int) else none
  | cs =>
    (parse_i32_digits cs).bind fun n =>
      if n ≤ 2147483647 then some (n : Int) else none

/-- Model of the Rust cast `v as i32` on an `f64` value: truncation toward
zero, saturating at the `i32` bounds (src/table.rs line 231). -/
def f64_as_i32 (x : Rat) : Int :=
  let t : Int := if 0 ≤ x then x.floor else x.ceil
  min (max t (-2147483648)) 2147483647

/-! ## Domain enums (src/icons.rs) -/

/-- `IconWeight` (src/icons.rs lines 204-214); `Regular` carries
`#[default]`. -/
inductive IconWeight where
  | Thin
  | Light
  | Regular
  | Bold
  | Fill
  | Duotone
deriving DecidableEq, Repr

/-- `FromStr for IconWeight` (src/icons.rs lines 241-254): only the six
lowercase labels parse; anything else is an error naming the value. -/
def IconWeight.from_str (value : String) : Except String IconWeight :=
  if value = "thin" then .ok .Thin
  else if value = "light" then .ok .Light
  else if value = "regular" then .ok .Regular
  else if value = "bold" then .ok .Bold
  else if value = "fill" then .ok .Fill
  else if value = "duotone" then .ok .Duotone
  else .error ("Invalid IconWeight: " ++ value)

/-- `IconStatus` (src/icons.rs lines 256-267); `None` carries `#[default]`
and `#[serde(other)]`. -/
inductive IconStatus where
  | Backlog
  | Designing
  | Designed
  | Implemented
  | Deprecated
  | None
deriving DecidableEq, Repr

/-- `Display for IconStatus` (src/icons.rs lines 295-306). -/
def IconStatus.display : IconStatus → String
  | .Backlog => "Backlog"
  | .Designing => "Designing"
  | .Designed => "Designed"
  | .Implemented => "Implemented"
  | .Deprecated => "Deprecated"
  | .None => "None"

/-- Model of `serde_plain::from_str::<IconStatus>` with the PascalCase serde
names of src/icons.rs: any string not matching one of the five concrete
labels deserializes into the `#[serde(other)]` variant `None`, so the parse
never fails. -/
def IconStatus.from_serde_str (s : String) : IconStatus :=
  if s = "Backlog" then .Backlog
  else if s = "Designing" then .Designing
  else if s = "Designed" then .Designed
  else if s = "Implemented" then .Implemented
  else if s = "Deprecated" then .Deprecated
  else .None

/-- Search `Category` taxonomy (src/icons.rs lines 420-443); `Unknown`
carries `#[serde(other)]`. -/
inductive Category where
  | Arrows
  | Brand
  | Commerce
  | Communication
  | Design
  | Development
  | Editor
  | Finance
  | Games
  | Office
  | Health
  | Map
  | Media
  | Nature
  | Objects
  | People
  | System
  | Weather
  | Unknown
deriving DecidableEq, Repr

/-- `Display for Category` (src/icons.rs lines 514-538): the variant name
itself. -/
def Category.display : Category → String
  | .Arrows => "Arrows"
  | .Brand => "Brand"
  | .Commerce => "Commerce"
  | .Communication => "Communication"
  | .Design => "Design"
  | .Development => "Development"
  | .Editor => "Editor"
  | .Finance => "Finance"
  | .Games => "Games"
  | .Office => "Office"
  | .Health => "Health"
  | .Map => "Map"
  | .Media => "Media"
  | .Nature => "Nature"
  | .Objects => "Objects"
  | .People => "People"
  | .System => "System"
  | .Weather => "Weather"
  | .Unknown => "Unknown"

/-- Model of `serde_plain::from_str::<Category>`: unmatched labels fall into
the `#[serde(other)]` variant `Unknown`, so the parse never fails. -/
def Category.from_serde_str (s : String) : Category :=
  if s = "Arrows" then .Arrows
  else if s = "Brand" then .Brand
  else if s = "Commerce" then .Commerce
  else if s = "Communication" then .Communication
  else if s = "Design" then .Design
  else if s = "Development" then .Development
  else if s = "Editor" then .Editor
  else if s = "Finance" then .Finance
  else if s = "Games" then .Games
  else if s = "Office" then .Office
  else if s = "Health" then .Health
  else if s = "Map" then .Map
  else if s = "Media" then .Media
  else if s = "Nature" then .Nature
  else if s = "Objects" then .Objects
  else if s = "People" then .People
  else if s = "System" then .System
  else if s = "Weather" then .Weather
  else .Unknown

/-- Display (Figma) category taxonomy (src/icons.rs lines 308-339);
`Unknown` carries `#[serde(other)]`. -/
inductive FigmaCategory where
  | Arrows
  | Brands
  | Commerce
  | Communication
  | Design
  | Development
  | Education
  | Games
  | HealthAndWellness
  | MapsAndTravel
  | MathAndFinance
  | Media
  | OfficeAndEditing
  | People
  | SecurityAndWarnings
  | SystemAndDevices
  | Time
  | WeatherAndNature
  | Unknown
deriving DecidableEq, Repr

/-- Model of `serde_plain::from_str::<FigmaCategory>`: unmatched labels fall
into the `#[serde(other)]` variant `Unknown`, so the parse never fails. -/
def FigmaCategory.from_serde_str (s : String) : FigmaCategory :=
  if s = "Arrows" then .Arrows
  else if s = "Brands" then .Brands
  else if s = "Commerce" then .Commerce
  else if s = "Communication" then .Communication
  else if s = "Design" then .Design
  else if s = "Development" then .Development
  else if s = "Education" then .Education
  else if s = "Games" then .Games
  else if s = "Health & Wellness" then .HealthAndWellness
  else if s = "Maps & Travel" then .MapsAndTravel
  else if s = "Math & Finance" then .MathAndFinance
  else if s = "Media" then .Media
  else if s = "Office & Editing" then .OfficeAndEditing
  else if s = "People" then .People
  else if s = "Security & Warnings" then .SecurityAndWarnings
  else if s = "System & Devices" then .SystemAndDevices
  else if s = "Time" then .Time
  else if s = "Weather & Nature" then .WeatherAndNature
  else .Unknown

/-! ## Query model (src/db.rs) -/

/-- `Ternary` (src/db.rs lines 519-526); `True` carries `#[default]`. -/
inductive Ternary where
  | True
  | False
  | Any
deriving DecidableEq, Repr

/-- `OrderColumn` (src/db.rs lines 492-500). -/
inductive OrderColumn where
  | Name
  | Status
  | Release
  | Code
deriving DecidableEq, Repr

/-- `OrderDirection` (src/db.rs lines 502-508). -/
inductive OrderDirection where
  | Asc
  | Desc
deriving DecidableEq, Repr

/-- `IconReleaseQuery` (src/db.rs lines 432-438).  The misspelled variant
name `GraterThanOrEqual` is kept from the source.  Version numbers (`f64` in
Rust) are modelled as rationals. -/
inductive IconReleaseQuery where
  | Exact (v : Rat)
  | Range (a b : Rat)
  | LessThanOrEqual (v : Rat)
  | GraterThanOrEqual (v : Rat)
deriving DecidableEq, Repr

/-- `IconQuery` (src/db.rs lines 307-350): the filter model consumed by the
query compiler.  All dimensions are optional. -/
structure IconQuery where
  name : Option String
  released : Option IconReleaseQuery
  published : Option Ternary
  updated : Option IconReleaseQuery
  deprecated : Option IconReleaseQuery
  status : Option (List IconStatus)
  category : Option (List Category)
  tags : Option (List String)
  order : Option OrderColumn
  dir : Option OrderDirection
deriving Repr

/-- `IconQuery::default()`: every field absent. -/
def IconQuery.empty : IconQuery :=
  ⟨none, none, none, none, none, none, none, none, none, none⟩

/-- Stored icon row (the sea-orm entity `entities::icons::Model`).
Modelled from the spec: the file `src/entities/icons.rs` is generated code
absent from the sources; the field list and the database-level types are
taken from spec section 3 together with `FromRow for Icon`
(src/icons.rs lines 88-133), which reads `status`/`category` as strings,
`search_categories`/`tags` as string arrays, version columns as nullable
floats and `published` as a boolean. -/
structure IconsModel where
  id : Int
  rid : String
  name : String
  «alias» : Option String
  code : Option Int
  status : String
  category : String
  search_categories : List String
  tags : List String
  notes : Option String
  released_at : Option Rat
  last_updated_at : Option Rat
  deprecated_at : Option Rat
  published : Bool
deriving DecidableEq, Repr

/-- Semantics of one `IconReleaseQuery` comparison against a nullable stored
version column (src/db.rs lines 60-109): SQL comparisons with NULL are not
satisfied, `BETWEEN` is inclusive on both ends. -/
def releaseQCond (rq : IconReleaseQuery) (v : Option Rat) : Bool :=
  match rq, v with
  | .Exact x, some w => w == x
  | .Range a b, some w => decide (a ≤ w) && decide (w ≤ b)
  | .LessThanOrEqual x, some w => decide (w ≤ x)
  | .GraterThanOrEqual x, some w => decide (x ≤ w)
  | _, none => false

/-- Published clause of the compiler (src/db.rs lines 54-58): `True` or an
absent field constrain to published rows, `False` to unpublished rows,
`Any` adds no clause. -/
def publishedCond (q : IconQuery) (i : IconsModel) : Bool :=
  match q.published with
  | some .True | none => i.published == true
  | some .False => i.published == false
  | some .Any => true

/-- Released clause (src/db.rs lines 60-75). -/
def releasedCond (q : IconQuery) (i : IconsModel) : Bool :=
  match q.released with
  | none => true
  | some rq => releaseQCond rq i.released_at

/-- Updated clause (src/db.rs lines 77-92). -/
def updatedCond (q : IconQuery) (i : IconsModel) : Bool :=
  match q.updated with
  | none => true
  | some rq => releaseQCond rq i.last_updated_at

/-- Deprecated clause (src/db.rs lines 94-109). -/
def deprecatedCond (q : IconQuery) (i : IconsModel) : Bool :=
  match q.deprecated with
  | none => true
  | some rq => releaseQCond rq i.deprecated_at

/-- Status clause (src/db.rs lines 111-113): an `IN` test of the stored
status string against the displayed labels of the requested statuses.
sea-query renders an empty `IN` list as the unsatisfiable clause `1 = 2`,
which list membership in the empty list models exactly. -/
def statusCond (q : IconQuery) (i : IconsModel) : Bool :=
  match q.status with
  | none => true
  | some l => (l.map IconStatus.display).contains i.status

/-- Category clause (src/db.rs lines 115-120): Postgres array overlap
`search_categories && $1` against the displayed labels; overlap with the
empty array is false. -/
def categoryCond (q : IconQuery) (i : IconsModel) : Bool :=
  match q.category with
  | none => true
  | some l => i.search_categories.any fun s => (l.map Category.display).contains s

/-- Tags clause (src/db.rs lines 122-124): Postgres array overlap
`tags && $1`. -/
def tagsCond (q : IconQuery) (i : IconsModel) : Bool :=
  match q.tags with
  | none => true
  | some l => i.tags.any fun t => l.contains t

/-- Conjunction of every clause of `Db::build_condition_from_params` after
the name block (src/db.rs lines 54-126). -/
def restConds (q : IconQuery) (i : IconsModel) : Bool :=
  publishedCond q i && releasedCond q i && updatedCond q i && deprecatedCond q i
    && statusCond q i && categoryCond q i && tagsCond q i

/-- `Db::build_condition_from_params` (src/db.rs lines 38-127) as a
predicate on stored rows.  The name block comes first and mirrors the
source exactly: a name with a leading or trailing `*` is trimmed of all `*`
and, when nothing remains, the function returns the empty condition at once
(the Rust `return cond;` on line 45), skipping every later clause;
otherwise the trimmed name becomes a `LIKE %trimmed%` clause; a name
without edge wildcards becomes an equality clause. -/
def build_condition_from_params (q : IconQuery) (i : IconsModel) : Bool :=
  match q.name with
  | some name =>
    if starts_with_star name || ends_with_star name then
      if (trim_matches_star name).isEmpty then
        true
      else
        likeMatch ('%' :: (trim_matches_star name ++ ['%'])) i.name.toList
          && restConds q i
    else
      (i.name == name) && restConds q i
  | none => restConds q i

/-- Display of Rust's `ParseFloatError`, as produced by
`str::parse::<f64>`: parsing the empty string reports
`cannot parse float from empty string`; every other rejected token
reports `invalid float literal`.  Neither message contains the token. -/
def parseFloatErrorMsg (token : String) : String :=
  if token = "" then "cannot parse float from empty string"
  else "invalid float literal"

/-- `FromStr for IconReleaseQuery` (src/db.rs lines 440-475).  Each failed
bound parse produces `format!("Invalid number: {}", e)` where `e` is the
`ParseFloatError` for the token that failed first (in the two-bound arm,
`a` is parsed before `b`), modelled by `parseFloatErrorMsg`. -/
def icon_release_query_from_str (s : String) : Except String IconReleaseQuery :=
  match splitOnceList ['.', '.'] s.toList with
  | some (a, b) =>
    if (trimChars a).isEmpty then
      match parseF64Fragment (String.mk (trimChars b)) with
      | some x => .ok (.LessThanOrEqual x)
      | none => .error ("Invalid number: " ++ parseFloatErrorMsg (String.mk (trimChars b)))
    else if (trimChars b).isEmpty then
      match parseF64Fragment (String.mk (trimChars a)) with
      | some x => .ok (.GraterThanOrEqual x)
      | none => .error ("Invalid number: " ++ parseFloatErrorMsg (String.mk (trimChars a)))
    else
      match parseF64Fragment (String.mk (trimChars a)) with
      | none => .error ("Invalid number: " ++ parseFloatErrorMsg (String.mk (trimChars a)))
      | some x =>
        match parseF64Fragment (String.mk (trimChars b)) with
        | none => .error ("Invalid number: " ++ parseFloatErrorMsg (String.mk (trimChars b)))
        | some y => .ok (.Range x y)
  | none =>
    match parseF64Fragment s with
    | some v => .ok (.Exact v)
    | none => .error ("Invalid number: " ++ parseFloatErrorMsg s)

/-! ## Reconciliation store (src/db.rs `upsert_icon`) -/

/-- Field overwrite performed by the `ON CONFLICT (rid) DO UPDATE` column
list of `Db::upsert_icon` (src/db.rs lines 199-213): every mutable business
field is replaced, while `id` (not in the list) and `rid` (the conflict
key, equal anyway) are kept. -/
def apply_update_columns (old new : IconsModel) : IconsModel :=
  { old with
    name := new.name
    status := new.status
    category := new.category
    search_categories := new.search_categories
    tags := new.tags
    notes := new.notes
    released_at := new.released_at
    last_updated_at := new.last_updated_at
    deprecated_at := new.deprecated_at
    published := new.published
    «alias» := new.«alias»
    code := new.code }

/-- Abstract state of the `icons` table together with the id sequence.
Modelled from the spec: the store assigns a fresh surrogate `id` on insert
(spec sections 3 and 4.4); updates never touch `id`. -/
structure IconStore where
  rows : List IconsModel
  nextId : Int
deriving Repr

/-- `Db::upsert_icon` (src/db.rs lines 195-218): insert keyed on the unique
`rid` column; on conflict the update column list of `apply_update_columns`
is applied to the existing row, otherwise a new row is appended with a
store-assigned id. -/
def upsert_icon (s : IconStore) (icon : IconsModel) : IconStore :=
  if s.rows.any (fun r => r.rid == icon.rid) then
    { s with rows := s.rows.map fun r =>
        if r.rid == icon.rid then apply_update_columns r icon else r }
  else
    { rows := s.rows ++ [{ icon with id := s.nextId }], nextId := s.nextId + 1 }

/-! ## Filter dimensions (for the monotonic-narrowing claim) -/

/-- One assignable filter dimension of `IconQuery`. -/
inductive FilterDim where
  | nameD (s : String)
  | releasedD (r : IconReleaseQuery)
  | publishedD (t : Ternary)
  | updatedD (r : IconReleaseQuery)
  | deprecatedD (r : IconReleaseQuery)
  | statusD (l : List IconStatus)
  | categoryD (l : List Category)
  | tagsD (l : List String)

/-- Extend a filter model with one dimension. -/
def setDim (q : IconQuery) : FilterDim → IconQuery
  | .nameD s => { q with name := some s }
  | .releasedD r => { q with released := some r }
  | .publishedD t => { q with published := some t }
  | .updatedD r => { q with updated := some r }
  | .deprecatedD r => { q with deprecated := some r }
  | .statusD l => { q with status := some l }
  | .categoryD l => { q with category := some l }
  | .tagsD l => { q with tags := some l }

/-- The dimension is not yet present in the filter model. -/
def dimAbsent (q : IconQuery) : FilterDim → Prop
  | .nameD _ => q.name = none
  | .releasedD _ => q.released = none
  | .publishedD _ => q.published = none
  | .updatedD _ => q.updated = none
  | .deprecatedD _ => q.deprecated = none
  | .statusD _ => q.status = none
  | .categoryD _ => q.category = none
  | .tagsD _ => q.tags = none

/-- The name field of the filter, when present, is a bare wildcard: it has
an edge `*` and trims to nothing, triggering the early return of
src/db.rs line 45. -/
def is_bare_wildcard_name (q : IconQuery) : Bool :=
  match q.name with
  | some n => (starts_with_star n || ends_with_star n) && (trim_matches_star n).isEmpty
  | none => false

/-! ## External rows (src/table.rs) -/

/-- Cell kinds of `prost_types::Value` as delivered by the Tables API
(string, number, bool, list, struct, null).  A missing `kind` is modelled
by the surrounding `Option`. -/
inductive PValueKind where
  | nullValue
  | numberValue (n : Rat)
  | stringValue (s : String)
  | boolValue (b : Bool)
  | structValue
  | listValue (values : List (Option PValueKind))

/-- A `prost_types::Value`: an optional kind. -/
abbrev PValue := Option PValueKind

/-- One external row: a finite map from column label to cell value
(the `values` map of a Tables API `Row`). -/
structure Row where
  values : List (String × PValue)

/-- `row.values.get(label)`: first binding for the label, if any. -/
def row_get (row : Row) (label : String) : Option PValue :=
  (row.values.find? fun kv => kv.1 == label).map fun kv => kv.2

/-- `TableColumn` (src/table.rs lines 26-40). -/
inductive TableColumn where
  | Rid
  | Name
  | Status
  | Category
  | SearchCategories
  | Tags
  | Notes
  | ReleasedAt
  | LastUpdatedAt
  | DeprecatedAt
  | Published
  | Alias
  | Code

/-- `TableColumn::as_str` (src/table.rs lines 42-60): the column labels of
the external table. -/
def TableColumn.as_str : TableColumn → String
  | .Rid => "RID"
  | .Name => "Name"
  | .Status => "Status"
  | .Category => "Category"
  | .SearchCategories => "Search Categories"
  | .Tags => "Tags"
  | .Notes => "Notes"
  | .ReleasedAt => "Release"
  | .LastUpdatedAt => "Last Updated"
  | .DeprecatedAt => "Deprecated"
  | .Published => "Published"
  | .Alias => "Alias"
  | .Code => "Codepoint"

/-- `TableClientError` (src/table.rs lines 62-70).  Only the `ParseError`
variant is constructible inside the decoder; the transport variants wrap
external library errors and never arise in the row model. -/
inductive TableClientError where
  | ParseError (msg : String)
deriving DecidableEq, Repr

/-- `as_string` (src/table.rs lines 197-202): only a string-kind cell
yields a string. -/
def as_string (value : PValue) : Option String :=
  match value with
  | some (.stringValue v) => some v
  | _ => none

/-- `as_string_array` (src/table.rs lines 204-219): a string-kind cell is
split on the literal `", "` and each segment trimmed; a list-kind cell
keeps its string elements; anything else gives the empty list. -/
def as_string_array (value : PValue) : List String :=
  match value with
  | some (.stringValue v) =>
    (split_comma_space [] v.toList).map fun cs => String.mk (trimChars cs)
  | some (.listValue vs) =>
    vs.filterMap fun v =>
      match v with
      | some (.stringValue s) => some s
      | _ => none
  | _ => []

/-- `as_float` (src/table.rs lines 221-227): a number-kind cell is taken as
is, a string-kind cell is parsed as `f64`, anything else is `none`. -/
def as_float (value : PValue) : Option Rat :=
  match value with
  | some (.numberValue v) => some v
  | some (.stringValue v) => parseF64Fragment v
  | _ => none

/-- `as_int` (src/table.rs lines 229-235): a number-kind cell is cast with
`as i32`, a string-kind cell is parsed as `i32`, anything else is `none`. -/
def as_int (value : PValue) : Option Int :=
  match value with
  | some (.numberValue v) => some (f64_as_i32 v)
  | some (.stringValue v) => parse_i32 v
  | _ => none

/-- `as_bool` (src/table.rs lines 237-242): only a bool-kind cell carries
its value; every other kind, including string cells, yields `false`. -/
def as_bool (value : PValue) : Bool :=
  match value with
  | some (.boolValue v) => v
  | _ => false

/-- `as_status` (src/table.rs lines 244-249): a string-kind cell always
deserializes (unknown labels land on `IconStatus.None` through
`#[serde(other)]`); any other kind is `none`. -/
def as_status (value : PValue) : Option IconStatus :=
  match value with
  | some (.stringValue v) => some (IconStatus.from_serde_str v)
  | _ => none

/-- `as_category` (src/table.rs lines 251-256). -/
def as_category (value : PValue) : Option FigmaCategory :=
  match value with
  | some (.stringValue v) => some (FigmaCategory.from_serde_str v)
  | _ => none

/-- `as_search_categories` (src/table.rs lines 258-270): only a list-kind
cell is decoded, element by element, keeping string elements mapped through
the serde parse of `Category`; every other kind, including string cells,
yields the empty list. -/
def as_search_categories (value : PValue) : List Category :=
  match value with
  | some (.listValue vs) =>
    vs.filterMap fun v =>
      match v with
      | some (.stringValue s) => some (Category.from_serde_str s)
      | _ => none
  | _ => []

/-- Decoded `Icon` (src/icons.rs lines 6-86). -/
structure Icon where
  id : Int
  rid : String
  name : String
  «alias» : Option String
  code : Option Int
  status : IconStatus
  search_categories : List Category
  category : FigmaCategory
  tags : List String
  notes : Option String
  released_at : Option Rat
  last_updated_at : Option Rat
  deprecated_at : Option Rat
  published : Bool
deriving DecidableEq, Repr

/-- The `published` binding of `TryFrom<Row> for Icon`
(src/table.rs lines 168-172): map `as_bool` over the cell when present,
defaulting to `false` when the cell is absent.  Never errors. -/
def decode_published (row : Row) : Bool :=
  ((row_get row (TableColumn.Published.as_str)).map as_bool).getD false

/-- The `category` (search categories) binding of `TryFrom<Row> for Icon`
(src/table.rs lines 141-145). -/
def decode_search_categories (row : Row) : List Category :=
  ((row_get row (TableColumn.SearchCategories.as_str)).map as_search_categories).getD []

/-- The `tags` binding of `TryFrom<Row> for Icon`
(src/table.rs lines 151-155). -/
def decode_tags (row : Row) : List String :=
  ((row_get row (TableColumn.Tags.as_str)).map as_string_array).getD []

/-- `TryFrom<Row> for Icon` (src/table.rs lines 118-195): `rid` and `name`
must resolve to strings, otherwise the row is rejected with a descriptive
`ParseError`; every other field degrades to a default. -/
def icon_try_from (row : Row) : Except TableClientError Icon :=
  match (row_get row (TableColumn.Rid.as_str)).bind as_string with
  | none => .error (.ParseError "Missing RID")
  | some rid =>
    match (row_get row (TableColumn.Name.as_str)).bind as_string with
    | none => .error (.ParseError "Missing Name")
    | some name =>
      .ok
        { id := 0
          rid := rid
          name := name
          «alias» := (row_get row (TableColumn.Alias.as_str)).bind as_string
          code := (row_get row (TableColumn.Code.as_str)).bind as_int
          status := ((row_get row (TableColumn.Status.as_str)).bind as_status).getD .None
          search_categories := decode_search_categories row
          category :=
            ((row_get row (TableColumn.Category.as_str)).bind as_category).getD .Unknown
          tags := decode_tags row
          notes := (row_get row (TableColumn.Notes.as_str)).bind as_string
          released_at := (row_get row (TableColumn.ReleasedAt.as_str)).bind as_float
          last_updated_at := (row_get row (TableColumn.LastUpdatedAt.as_str)).bind as_float
          deprecated_at := (row_get row (TableColumn.DeprecatedAt.as_str)).bind as_float
          published := decode_published row }

/-- The per-row loop of `TableClient::sync` (src/table.rs lines 104-107):
`Icon::try_from(row).unwrap()` for each fetched row.  The `unwrap` panics
on the first row whose decoding fails, aborting the whole sync pass;
the panic is modelled by `none`. -/
def sync_decode_rows (rows : List Row) : Option (List Icon) :=
  match rows with
  | [] => some []
  | r :: rest =>
    match icon_try_from r with
    | .error _ => none
    | .ok i => (sync_decode_rows rest).map fun is => i :: is

/-! ## Svg conversion (src/svgs.rs, src/entities/svgs.rs) -/

/-- `entities::svgs::Model` (src/entities/svgs.rs lines 5-15). -/
structure SvgsModel where
  id : Int
  icon_id : Int
  weight : String
  src : String
deriving DecidableEq, Repr

/-- Public `Svg` value (src/svgs.rs lines 6-12). -/
structure Svg where
  id : Int
  icon_id : Int
  weight : IconWeight
  src : String
deriving DecidableEq, Repr

/-- `From<Model> for Svg` (src/svgs.rs lines 14-23):
`IconWeight::from_str(&model.weight).unwrap_or_default()`, where the
`#[default]` variant is `Regular`.  Total — parse failure silently becomes
`Regular`. -/
def svg_from_model (model : SvgsModel) : Svg :=
  { id := model.id
    icon_id := model.icon_id
    weight :=
      match IconWeight.from_str model.weight with
      | .ok w => w
      | .error _ => .Regular
    src := model.src }

/-! ## Concrete fixtures used by counterexamples and witnesses -/

/-- A published stored icon named `cube`. -/
def cubeIcon : IconsModel :=
  { id := 1, rid := "r-cube", name := "cube", «alias» := none, code := some 57818
    status := "Implemented", category := "Design", search_categories := ["Design"]
    tags := ["box"], notes := none, released_at := some 1, last_updated_at := some 2
    deprecated_at := none, published := true }

/-- A published stored icon named `mega-cube`. -/
def megaCubeIcon : IconsModel :=
  { cubeIcon with id := 2, rid := "r-mega", name := "mega-cube" }

/-- A published stored icon named `cube-fill`. -/
def cubeFillIcon : IconsModel :=
  { cubeIcon with id := 3, rid := "r-fill", name := "cube-fill" }

/-- An unpublished stored icon. -/
def draftIcon : IconsModel :=
  { cubeIcon with id := 4, rid := "r-draft", name := "draft", published := false }

/-- A well-formed external row: string `RID` and `Name` cells. -/
def goodRow : Row :=
  ⟨[("RID", some (.stringValue "r-good")), ("Name", some (.stringValue "cube"))]⟩

/-- An external row missing the `RID` cell. -/
def badRow : Row :=
  ⟨[("Name", some (.stringValue "ghost"))]⟩

/-- An external row whose `Published` cell is the string `"Y"`. -/
def publishedYRow : Row :=
  ⟨[("RID", some (.stringValue "r-y")), ("Name", some (.stringValue "y-icon")),
    ("Published", some (.stringValue "Y"))]⟩

/-! ## Helper lemmas: the LIKE matcher -/

theorem likeMatch_nil (s : List Char) : likeMatch [] s = s.isEmpty := by
  cases s <;> simp [likeMatch]

theorem likeMatch_percent (ps s : List Char) :
    likeMatch ('%' :: ps) s = true ↔ ∃ s2, s2 <:+ s ∧ likeMatch ps s2 = true := by
  induction s with
  | nil =>
    simp only [likeMatch, if_pos rfl, Bool.or_false, List.suffix_nil]
    constructor
    · intro h; exact ⟨[], rfl, h⟩
    · rintro ⟨s2, rfl, h⟩; exact h
  | cons c s ih =>
    have hunf : likeMatch ('%' :: ps) (c :: s)
        = (likeMatch ps (c :: s) || likeMatch ('%' :: ps) s) := by
      simp [likeMatch]
    rw [hunf, Bool.or_eq_true, ih]
    constructor
    · rintro (h | ⟨s2, hsuf, h⟩)
      · exact ⟨c :: s, List.suffix_refl _, h⟩
      · exact ⟨s2, hsuf.trans (List.suffix_cons c s), h⟩
    · rintro ⟨s2, hsuf, h⟩
      rcases List.suffix_cons_iff.mp hsuf with rfl | hsuf
      · exact Or.inl h
      · exact Or.inr ⟨s2, hsuf, h⟩

theorem likeMatch_literal (t : List Char) :
    ∀ s, (∀ c ∈ t, c ≠ '%' ∧ c ≠ '_') →
      (likeMatch (t ++ ['%']) s = true ↔ t <+: s) := by
  induction t with
  | nil =>
    intro s _
    rw [List.nil_append, likeMatch_percent]
    simp only [likeMatch_nil, List.isEmpty_iff]
    constructor
    · intro _; exact List.nil_prefix
    · intro _; exact ⟨[], List.nil_suffix, rfl⟩
  | cons c t ih =>
    intro s ht
    have hc := ht c (List.mem_cons_self c t)
    have ht' : ∀ x ∈ t, x ≠ '%' ∧ x ≠ '_' := fun x hx => ht x (List.mem_cons_of_mem c hx)
    cases s with
    | nil =>
      simp only [List.cons_append, likeMatch, if_neg hc.1]
      constructor
      · intro h; cases h
      · intro h; exact absurd (List.IsPrefix.length_le h) (by simp)
    | cons c2 s2 =>
      have hunf : likeMatch ((c :: t) ++ ['%']) (c2 :: s2)
          = (c == c2 && likeMatch (t ++ ['%']) s2) := by
        simp only [List.cons_append, likeMatch, if_neg hc.1, if_neg hc.2]
      rw [hunf, Bool.and_eq_true, beq_iff_eq, ih s2 ht', List.cons_prefix_cons]

theorem likeMatch_substring (t s : List Char) (ht : ∀ c ∈ t, c ≠ '%' ∧ c ≠ '_') :
    (likeMatch ('%' :: (t ++ ['%'])) s = true ↔ t <:+: s) := by
  rw [likeMatch_percent]
  constructor
  · rintro ⟨s2, hsuf, hm⟩
    exact List.infix_iff_prefix_suffix.mpr ⟨s2, (likeMatch_literal t s2 ht).mp hm, hsuf⟩
  · intro h
    obtain ⟨s2, hpre, hsuf⟩ := List.infix_iff_prefix_suffix.mp h
    exact ⟨s2, hsuf, (likeMatch_literal t s2 ht).mpr hpre⟩

/-! ## Helper lemmas: the query compiler name block -/

theorem build_condition_noname (q : IconQuery) (i : IconsModel) (hq : q.name = none) :
    build_condition_from_params q i = restConds q i := by
  unfold build_condition_from_params
  rw [hq]

theorem build_condition_name_bare (q : IconQuery) (n : String) (i : IconsModel)
    (hq : q.name = some n) (hw : (starts_with_star n || ends_with_star n) = true)
    (hne : (trim_matches_star n).isEmpty = true) :
    build_condition_from_params q i = true := by
  unfold build_condition_from_params
  rw [hq]
  simp [hw, hne]

theorem build_condition_name_wildcard (q : IconQuery) (n : String) (i : IconsModel)
    (hq : q.name = some n) (hw : (starts_with_star n || ends_with_star n) = true)
    (hne : (trim_matches_star n).isEmpty = false) :
    build_condition_from_params q i
      = (likeMatch ('%' :: (trim_matches_star n ++ ['%'])) i.name.toList
          && restConds q i) := by
  unfold build_condition_from_params
  rw [hq]
  simp [hw, hne]

theorem build_condition_name_exact (q : IconQuery) (n : String) (i : IconsModel)
    (hq : q.name = some n) (hw : (starts_with_star n || ends_with_star n) = false) :
    build_condition_from_params q i = ((i.name == n) && restConds q i) := by
  unfold build_condition_from_params
  rw [hq]
  simp [hw]

theorem build_of_restConds_mono (q q2 : IconQuery) (i : IconsModel)
    (hn : q2.name = q.name)
    (hr : restConds q2 i = true → restConds q i = true)
    (h : build_condition_from_params q2 i = true) :
    build_condition_from_params q i = true := by
  cases hqn : q.name with
  | none =>
    rw [build_condition_noname q i hqn]
    rw [build_condition_noname q2 i (hn.trans hqn)] at h
    exact hr h
  | some n =>
    have hqn2 : q2.name = some n := hn.trans hqn
    by_cases hw : (starts_with_star n || ends_with_star n) = true
    · by_cases hne : (trim_matches_star n).isEmpty = true
      · exact build_condition_name_bare q n i hqn hw hne
      · have hne' : (trim_matches_star n).isEmpty = false := by
          revert hne; cases (trim_matches_star n).isEmpty <;> simp
        rw [build_condition_name_wildcard q2 n i hqn2 hw hne', Bool.and_eq_true] at h
        rw [build_condition_name_wildcard q n i hqn hw hne', Bool.and_eq_true]
        exact ⟨h.1, hr h.2⟩
    · have hw' : (starts_with_star n || ends_with_star n) = false := by
        revert hw; cases (starts_with_star n || ends_with_star n) <;> simp
      rw [build_condition_name_exact q2 n i hqn2 hw', Bool.and_eq_true] at h
      rw [build_condition_name_exact q n i hqn hw', Bool.and_eq_true]
      exact ⟨h.1, hr h.2⟩

/-! ## Helper lemmas: first-occurrence splitting -/

theorem splitOnceList_sound (sep : List Char) :
    ∀ s a b, splitOnceList sep s = some (a, b) → s = a ++ sep ++ b := by
  intro s
  induction s with
  | nil => intro a b h; simp [splitOnceList] at h
  | cons c cs ih =>
    intro a b h
    by_cases hp : sep.isPrefixOf (c :: cs)
    · rw [splitOnceList, if_pos hp] at h
      obtain ⟨rfl, rfl⟩ : a = [] ∧ (c :: cs).drop sep.length = b := by
        simpa using h
      obtain ⟨t, ht⟩ := List.isPrefixOf_iff_prefix.mp hp
      rw [← ht, List.drop_left, List.nil_append]
    · rw [splitOnceList, if_neg hp] at h
      cases hrec : splitOnceList sep cs with
      | none => rw [hrec] at h; cases h
      | some ab =>
        obtain ⟨a0, b0⟩ := ab
        rw [hrec] at h
        obtain ⟨rfl, rfl⟩ : c :: a0 = a ∧ b0 = b := by simpa using h
        rw [ih a0 b0 hrec]
        rfl

theorem splitOnceList_none (sep : List Char) (s : List Char) (h : ¬ sep <:+: s) :
    splitOnceList sep s = none := by
  cases hr : splitOnceList sep s with
  | none => rfl
  | some ab =>
    obtain ⟨a, b⟩ := ab
    exact absurd ⟨a, b, (splitOnceList_sound sep s a b hr).symm⟩ h

theorem splitOnce_dots_append (a b : List Char) (h : ¬ ['.', '.'] <:+: (a ++ ['.'])) :
    splitOnceList ['.', '.'] (a ++ '.' :: '.' :: b) = some (a, b) := by
  induction a with
  | nil =>
    rw [List.nil_append, splitOnceList, if_pos (by simp [List.isPrefixOf])]
    rfl
  | cons c a2 ih =>
    have hns : ¬ ['.', '.'].isPrefixOf (c :: (a2 ++ '.' :: '.' :: b)) := by
      intro hp
      rcases List.isPrefixOf_iff_prefix.mp hp with ⟨t, ht⟩
      have hc : c = '.' := by
        have := congrArg (fun l => l.head?) ht
        simpa using this.symm
      subst hc
      cases a2 with
      | nil =>
        exact h ⟨[], [], by simp⟩
      | cons d a3 =>
        have hd : d = '.' := by
          have := congrArg (fun l => l.tail.head?) ht
          simpa using this.symm
        subst hd
        exact h ⟨[], a3 ++ ['.'], by simp⟩
    rw [List.cons_append, splitOnceList, if_neg hns]
    have h2 : ¬ ['.', '.'] <:+: (a2 ++ ['.']) := by
      intro hinf
      exact h (by simpa using (List.infix_cons hinf : ['.', '.'] <:+: c :: (a2 ++ ['.'])))
    rw [ih h2]

theorem not_dots_infix_append_dot (a : List Char)
    (h1 : ¬ ['.', '.'] <:+: a) (h2 : a.getLast? ≠ some '.') :
    ¬ ['.', '.'] <:+: (a ++ ['.']) := by
  rintro ⟨s, t, hst⟩
  rcases List.eq_nil_or_concat t with rfl | ⟨L, x, rfl⟩
  · have hst2 : (s ++ ['.']) ++ ['.'] = a ++ ['.'] := by
      simpa using hst
    have ha : a = s ++ ['.'] := (List.append_cancel_right hst2).symm
    exact h2 (by rw [ha]; exact List.getLast?_concat s)
  · have hst2 : (s ++ ['.', '.'] ++ L) ++ [x] = a ++ ['.'] := by
      simpa [List.concat_eq_append] using hst
    have hx : x = '.' := by
      have := congrArg List.getLast? hst2
      rw [List.getLast?_concat, List.getLast?_concat] at this
      exact Option.some.inj this
    subst hx
    have ha : s ++ ['.', '.'] ++ L = a := List.append_cancel_right hst2
    exact h1 ⟨s, L, ha⟩

/-! ## Helper lemmas: comma-space splitting -/

theorem scs_no_sep (s : List Char) :
    ∀ acc, ¬ [',', ' '] <:+: (s ++ [',']) →
      split_comma_space acc s = [acc.reverse ++ s] := by
  induction s with
  | nil => intro acc _; simp [split_comma_space]
  | cons c rest ih =>
    intro acc h
    have hrest : ¬ [',', ' '] <:+: (rest ++ [',']) := by
      intro hinf
      exact h (by simpa using (List.infix_cons hinf : [',', ' '] <:+: c :: (rest ++ [','])))
    by_cases hc : c = ','
    · subst hc
      cases rest with
      | nil =>
        simp [split_comma_space]
      | cons c2 rest2 =>
        by_cases hc2 : c2 = ' '
        · subst hc2
          exact absurd ⟨[], rest2 ++ [','], by simp⟩ h
        · have hunf : split_comma_space acc (',' :: c2 :: rest2)
              = split_comma_space (',' :: acc) (c2 :: rest2) := by
            simp [split_comma_space, hc2]
          rw [hunf, ih (',' :: acc) hrest]
          simp
    · have hunf : split_comma_space acc (c :: rest)
          = split_comma_space (c :: acc) rest := by
        cases rest with
        | nil => simp [split_comma_space, hc]
        | cons c2 rest2 => simp [split_comma_space, hc]
      rw [hunf, ih (c :: acc) hrest]
      simp

theorem scs_append_sep (p : List Char) :
    ∀ acc rest, ¬ [',', ' '] <:+: (p ++ [',']) →
      split_comma_space acc (p ++ ',' :: ' ' :: rest)
        = (acc.reverse ++ p) :: split_comma_space [] rest := by
  induction p with
  | nil => intro acc rest _; simp [split_comma_space]
  | cons c p2 ih =>
    intro acc rest h
    have hp2 : ¬ [',', ' '] <:+: (p2 ++ [',']) := by
      intro hinf
      exact h (by simpa using (List.infix_cons hinf : [',', ' '] <:+: c :: (p2 ++ [','])))
    by_cases hc : c = ','
    · subst hc
      cases p2 with
      | nil =>
        have hunf : split_comma_space acc ([','] ++ ',' :: ' ' :: rest)
            = split_comma_space (',' :: acc) (',' :: ' ' :: rest) := by
          simp [split_comma_space]
        rw [hunf]
        simp [split_comma_space]
      | cons d p3 =>
        by_cases hd : d = ' '
        · subst hd
          exact absurd ⟨[], p3 ++ [','], by simp⟩ h
        · have hunf : split_comma_space acc ((',' :: d :: p3) ++ ',' :: ' ' :: rest)
              = split_comma_space (',' :: acc) ((d :: p3) ++ ',' :: ' ' :: rest) := by
            simp [split_comma_space, hd]
          rw [hunf, ih (',' :: acc) rest hp2]
          simp
    · have hunf : split_comma_space acc ((c :: p2) ++ ',' :: ' ' :: rest)
          = split_comma_space (c :: acc) (p2 ++ ',' :: ' ' :: rest) := by
        cases p2 with
        | nil => simp [split_comma_space, hc]
        | cons d p3 => simp [split_comma_space, hc]
      rw [hunf, ih (c :: acc) rest hp2]
      simp

theorem intercalate_cons_cons (sep p q : List Char) (rest : List (List Char)) :
    List.intercalate sep (p :: q :: rest) = p ++ sep ++ List.intercalate sep (q :: rest) := by
  simp [List.intercalate, List.intersperse_cons_cons, List.append_assoc]

theorem split_comma_space_intercalate (parts : List (List Char)) (hne : parts ≠ [])
    (hp : ∀ p ∈ parts, ¬ [',', ' '] <:+: (p ++ [','])) :
    split_comma_space [] (List.intercalate [',', ' '] parts) = parts := by
  induction parts with
  | nil => exact absurd rfl hne
  | cons p rest ih =>
    cases rest with
    | nil =>
      have hone : List.intercalate [',', ' '] [p] = p := by
        simp [List.intercalate]
      rw [hone, scs_no_sep p [] (hp p (List.mem_cons_self p []))]
      simp
    | cons q rest2 =>
      rw [intercalate_cons_cons]
      have hsep : p ++ [',', ' '] ++ List.intercalate [',', ' '] (q :: rest2)
          = p ++ ',' :: ' ' :: List.intercalate [',', ' '] (q :: rest2) := by
        simp
      rw [hsep, scs_append_sep p [] _ (hp p (List.mem_cons_self p _))]
      rw [ih (by simp) (fun x hx => hp x (List.mem_cons_of_mem p hx))]
      simp

/-! ## Helper lemmas: extending a filter by one dimension -/

theorem restConds_setDim_released (q : IconQuery) (r : IconReleaseQuery) (i : IconsModel)
    (habs : q.released = none) :
    (restConds (setDim q (.releasedD r)) i = true ↔
      (restConds q i = true ∧ releaseQCond r i.released_at = true)) := by
  have hconv : restConds (setDim q (.releasedD r)) i
      = (publishedCond q i && releaseQCond r i.released_at && updatedCond q i
          && deprecatedCond q i && statusCond q i && categoryCond q i && tagsCond q i) := rfl
  have hq : restConds q i
      = (publishedCond q i && true && updatedCond q i
          && deprecatedCond q i && statusCond q i && categoryCond q i && tagsCond q i) := by
    unfold restConds releasedCond
    rw [habs]
  rw [hconv, hq]
  simp only [Bool.and_eq_true, Bool.and_true]
  try tauto

theorem restConds_setDim_updated (q : IconQuery) (r : IconReleaseQuery) (i : IconsModel)
    (habs : q.updated = none) :
    (restConds (setDim q (.updatedD r)) i = true ↔
      (restConds q i = true ∧ releaseQCond r i.last_updated_at = true)) := by
  have hconv : restConds (setDim q (.updatedD r)) i
      = (publishedCond q i && releasedCond q i && releaseQCond r i.last_updated_at
          && deprecatedCond q i && statusCond q i && categoryCond q i && tagsCond q i) := rfl
  have hq : restConds q i
      = (publishedCond q i && releasedCond q i && true
          && deprecatedCond q i && statusCond q i && categoryCond q i && tagsCond q i) := by
    unfold restConds updatedCond
    rw [habs]
  rw [hconv, hq]
  simp only [Bool.and_eq_true, Bool.and_true]
  try tauto

theorem restConds_setDim_deprecated (q : IconQuery) (r : IconReleaseQuery) (i : IconsModel)
    (habs : q.deprecated = none) :
    (restConds (setDim q (.deprecatedD r)) i = true ↔
      (restConds q i = true ∧ releaseQCond r i.deprecated_at = true)) := by
  have hconv : restConds (setDim q (.deprecatedD r)) i
      = (publishedCond q i && releasedCond q i && updatedCond q i
          && releaseQCond r i.deprecated_at && statusCond q i && categoryCond q i
          && tagsCond q i) := rfl
  have hq : restConds q i
      = (publishedCond q i && releasedCond q i && updatedCond q i
          && true && statusCond q i && categoryCond q i && tagsCond q i) := by
    unfold restConds deprecatedCond
    rw [habs]
  rw [hconv, hq]
  simp only [Bool.and_eq_true, Bool.and_true]
  try tauto

theorem restConds_setDim_status (q : IconQuery) (l : List IconStatus) (i : IconsModel)
    (habs : q.status = none) :
    (restConds (setDim q (.statusD l)) i = true ↔
      (restConds q i = true ∧ (l.map IconStatus.display).contains i.status = true)) := by
  have hconv : restConds (setDim q (.statusD l)) i
      = (publishedCond q i && releasedCond q i && updatedCond q i && deprecatedCond q i
          && (l.map IconStatus.display).contains i.status && categoryCond q i
          && tagsCond q i) := rfl
  have hq : restConds q i
      = (publishedCond q i && releasedCond q i && updatedCond q i && deprecatedCond q i
          && true && categoryCond q i && tagsCond q i) := by
    unfold restConds statusCond
    rw [habs]
  rw [hconv, hq]
  simp only [Bool.and_eq_true, Bool.and_true]
  try tauto

theorem restConds_setDim_category (q : IconQuery) (l : List Category) (i : IconsModel)
    (habs : q.category = none) :
    (restConds (setDim q (.categoryD l)) i = true ↔
      (restConds q i = true
        ∧ (i.search_categories.any fun s => (l.map Category.display).contains s) = true)) := by
  have hconv : restConds (setDim q (.categoryD l)) i
      = (publishedCond q i && releasedCond q i && updatedCond q i && deprecatedCond q i
          && statusCond q i && (i.search_categories.any fun s => (l.map Category.display).contains s)
          && tagsCond q i) := rfl
  have hq : restConds q i
      = (publishedCond q i && releasedCond q i && updatedCond q i && deprecatedCond q i
          && statusCond q i && true && tagsCond q i) := by
    unfold restConds categoryCond
    rw [habs]
  rw [hconv, hq]
  simp only [Bool.and_eq_true, Bool.and_true]
  try tauto

theorem restConds_setDim_tags (q : IconQuery) (l : List String) (i : IconsModel)
    (habs : q.tags = none) :
    (restConds (setDim q (.tagsD l)) i = true ↔
      (restConds q i = true ∧ (i.tags.any fun t => l.contains t) = true)) := by
  have hconv : restConds (setDim q (.tagsD l)) i
      = (publishedCond q i && releasedCond q i && updatedCond q i && deprecatedCond q i
          && statusCond q i && categoryCond q i && (i.tags.any fun t => l.contains t)) := rfl
  have hq : restConds q i
      = (publishedCond q i && releasedCond q i && updatedCond q i && deprecatedCond q i
          && statusCond q i && categoryCond q i && true) := by
    unfold restConds tagsCond
    rw [habs]
  rw [hconv, hq]
  simp only [Bool.and_eq_true, Bool.and_true]
  try tauto

theorem restConds_setDim_published_true (q : IconQuery) (i : IconsModel)
    (habs : q.published = none) :
    restConds (setDim q (.publishedD .True)) i = restConds q i := by
  have hconv : restConds (setDim q (.publishedD .True)) i
      = ((i.published == true) && releasedCond q i && updatedCond q i && deprecatedCond q i
          && statusCond q i && categoryCond q i && tagsCond q i) := rfl
  have hq : restConds q i
      = ((i.published == true) && releasedCond q i && updatedCond q i && deprecatedCond q i
          && statusCond q i && categoryCond q i && tagsCond q i) := by
    unfold restConds publishedCond
    rw [habs]
  rw [hconv, hq]

/-! ## Claim C1 -/

/-- Claim C1 (amended): a filter whose name is the bare wildcard `*` makes
`build_condition_from_params` return the empty condition immediately: the
compiled predicate accepts every stored icon, regardless of which other
dimensions (published, versions, status, category, tags) are present —
they are all skipped by the early return, not compiled and AND-combined. -/
theorem c1_bare_wildcard_short_circuits (q : IconQuery) (h : q.name = some "*")
    (i : IconsModel) :
    build_condition_from_params q i = true :=
  build_condition_name_bare q "*" i h (by decide) (by decide)

/-- Witness for C1: a bare-wildcard query with `published = False` still
accepts both a published and an unpublished icon. -/
theorem c1_witness :
    build_condition_from_params
        { IconQuery.empty with name := some "*", published := some .False } cubeIcon = true
    ∧ build_condition_from_params
        { IconQuery.empty with name := some "*", published := some .False } draftIcon = true :=
  ⟨c1_bare_wildcard_short_circuits _ rfl _, c1_bare_wildcard_short_circuits _ rfl _⟩

/-- Counterexample to C1 as stated: with `name = "*"` and
`published = False`, the compiled predicate accepts a published icon, while
the identical filter without the name field rejects it — so the other
dimensions are NOT still compiled when the name is a bare wildcard. -/
theorem c1_counterexample :
    build_condition_from_params
        { IconQuery.empty with name := some "*", published := some .False } cubeIcon = true
    ∧ build_condition_from_params
        { IconQuery.empty with published := some .False } cubeIcon = false := by
  constructor <;> decide

/-! ## Claim C2 -/

/-- Claim C2 (amended): extending a filter with an absent dimension never
enlarges the accepted set, EXCEPT for the published tri-state (where only
the value `True` is harmless, since an absent published field already
constrains to published rows) and a bare-wildcard name (which
short-circuits the whole compiler): under those two exclusions, every icon
accepted by the extended predicate is accepted by the original one. -/
theorem c2_narrowing_amended (q : IconQuery) (d : FilterDim) (i : IconsModel)
    (habs : dimAbsent q d)
    (hpub : ∀ t, d = FilterDim.publishedD t → t = Ternary.True)
    (hname : ∀ s, d = FilterDim.nameD s →
      ¬((starts_with_star s || ends_with_star s) = true
        ∧ (trim_matches_star s).isEmpty = true))
    (h : build_condition_from_params (setDim q d) i = true) :
    build_condition_from_params q i = true := by
  cases d with
  | nameD s =>
    have habs' : q.name = none := habs
    rw [build_condition_noname q i habs']
    by_cases hw : (starts_with_star s || ends_with_star s) = true
    · have hne : (trim_matches_star s).isEmpty = false := by
        by_cases hbool : (trim_matches_star s).isEmpty = true
        · exact absurd ⟨hw, hbool⟩ (hname s rfl)
        · simpa using hbool
      rw [build_condition_name_wildcard (setDim q (.nameD s)) s i rfl hw hne,
        Bool.and_eq_true] at h
      exact h.2
    · have hw' : (starts_with_star s || ends_with_star s) = false := by
        revert hw; cases (starts_with_star s || ends_with_star s) <;> simp
      rw [build_condition_name_exact (setDim q (.nameD s)) s i rfl hw',
        Bool.and_eq_true] at h
      exact h.2
  | releasedD r =>
    exact build_of_restConds_mono q (setDim q (.releasedD r)) i rfl
      (fun hrc => ((restConds_setDim_released q r i habs).mp hrc).1) h
  | publishedD t =>
    have ht : t = Ternary.True := hpub t rfl
    subst ht
    exact build_of_restConds_mono q (setDim q (.publishedD .True)) i rfl
      (fun hrc => by rw [restConds_setDim_published_true q i habs] at hrc; exact hrc) h
  | updatedD r =>
    exact build_of_restConds_mono q (setDim q (.updatedD r)) i rfl
      (fun hrc => ((restConds_setDim_updated q r i habs).mp hrc).1) h
  | deprecatedD r =>
    exact build_of_restConds_mono q (setDim q (.deprecatedD r)) i rfl
      (fun hrc => ((restConds_setDim_deprecated q r i habs).mp hrc).1) h
  | statusD l =>
    exact build_of_restConds_mono q (setDim q (.statusD l)) i rfl
      (fun hrc => ((restConds_setDim_status q l i habs).mp hrc).1) h
  | categoryD l =>
    exact build_of_restConds_mono q (setDim q (.categoryD l)) i rfl
      (fun hrc => ((restConds_setDim_category q l i habs).mp hrc).1) h
  | tagsD l =>
    exact build_of_restConds_mono q (setDim q (.tagsD l)) i rfl
      (fun hrc => ((restConds_setDim_tags q l i habs).mp hrc).1) h

/-- Witness for C2: adding the tags dimension to the empty filter narrows;
the icon accepted by the extended filter is accepted by the base filter. -/
theorem c2_witness : build_condition_from_params IconQuery.empty cubeIcon = true :=
  c2_narrowing_amended IconQuery.empty (FilterDim.tagsD ["box"]) cubeIcon rfl
    (fun t ht => absurd ht (by simp))
    (fun s hs => absurd hs (by simp))
    (by decide)

/-- Counterexample to C2 as stated: adding the published dimension with
value `Any` to the empty filter ENLARGES the accepted set — the
unpublished icon satisfies the extended predicate but not the base one. -/
theorem c2_counterexample :
    dimAbsent IconQuery.empty (FilterDim.publishedD Ternary.Any)
    ∧ build_condition_from_params
        (setDim IconQuery.empty (FilterDim.publishedD Ternary.Any)) draftIcon = true
    ∧ build_condition_from_params IconQuery.empty draftIcon = false :=
  ⟨rfl, by decide, by decide⟩

/-! ## Claim C3 -/

/-- Claim C3 (amended): any name filter with a wildcard on either side (one
side or both) compiles to the same SUBSTRING match on the name trimmed of
its `*` characters — one-sided patterns are NOT prefix/suffix matches — so
`name="cube*"` accepts both `cube-fill` and `mega-cube`; a name without
edge wildcards compiles to exact equality.  (Substring reading stated for
trimmed names free of the LIKE metacharacters `%` and `_`.) -/
theorem c3_wildcard_is_substring_match (q : IconQuery) (i : IconsModel) (n : String)
    (hq : q.name = some n) :
    (((starts_with_star n || ends_with_star n) = true →
      (trim_matches_star n).isEmpty = false →
      (∀ c ∈ trim_matches_star n, c ≠ '%' ∧ c ≠ '_') →
      (build_condition_from_params q i = true ↔
        (trim_matches_star n <:+: i.name.toList ∧ restConds q i = true))))
    ∧ ((starts_with_star n || ends_with_star n) = false →
      (build_condition_from_params q i = true ↔ (i.name = n ∧ restConds q i = true))) := by
  constructor
  · intro hw hne ht
    rw [build_condition_name_wildcard q n i hq hw hne, Bool.and_eq_true,
      likeMatch_substring _ _ ht]
  · intro hw
    rw [build_condition_name_exact q n i hq hw, Bool.and_eq_true, beq_iff_eq]

/-- Witness for C3: `name="cube*"` accepts `cube-fill`; a non-wildcard name
filter rejects an icon with a different name. -/
theorem c3_witness :
    build_condition_from_params { IconQuery.empty with name := some "cube*" } cubeFillIcon = true
    ∧ build_condition_from_params { IconQuery.empty with name := some "plumbus" } cubeIcon = false := by
  constructor
  · exact ((c3_wildcard_is_substring_match
        { IconQuery.empty with name := some "cube*" } cubeFillIcon "cube*" rfl).1
      (by decide) (by decide) (by decide)).mpr ⟨by decide, by decide⟩
  · have h := (c3_wildcard_is_substring_match
        { IconQuery.empty with name := some "plumbus" } cubeIcon "plumbus" rfl).2 (by decide)
    by_cases htr : build_condition_from_params
        { IconQuery.empty with name := some "plumbus" } cubeIcon = true
    · exact absurd (h.mp htr).1 (by decide)
    · simpa using htr

/-- Counterexample to C3 as stated: the one-sided pattern `cube*` is
compiled as a substring match, so the icon named `mega-cube` — which the
claim says must NOT satisfy `name="cube*"` — does satisfy the compiled
predicate. -/
theorem c3_counterexample :
    build_condition_from_params { IconQuery.empty with name := some "cube*" } megaCubeIcon = true := by
  rw [build_condition_name_wildcard _ "cube*" megaCubeIcon rfl (by decide) (by decide),
    Bool.and_eq_true, likeMatch_substring _ _ (by decide)]
  exact ⟨by decide, by decide⟩

/-! ## Claim C8 -/

/-- Claim C8 (amended): a provided-but-EMPTY status, category or tags set
does not mean "no constraint" — it compiles to an unsatisfiable clause
(sea-query renders an empty `IN` as `1 = 2`; array overlap with the empty
array is false), so the whole predicate rejects every icon (unless a
bare-wildcard name short-circuits the compiler first). -/
theorem c8_empty_set_matches_nothing (q : IconQuery) (i : IconsModel)
    (hbare : is_bare_wildcard_name q = false)
    (h : q.status = some [] ∨ q.category = some [] ∨ q.tags = some []) :
    build_condition_from_params q i = false := by
  have hrest : restConds q i = false := by
    rcases h with h | h | h
    · simp [restConds, statusCond, h]
    · simp [restConds, categoryCond, h]
    · simp [restConds, tagsCond, h]
  cases hqn : q.name with
  | none => rw [build_condition_noname q i hqn, hrest]
  | some n =>
    by_cases hw : (starts_with_star n || ends_with_star n) = true
    · have hne : (trim_matches_star n).isEmpty = false := by
        unfold is_bare_wildcard_name at hbare
        rw [hqn] at hbare
        simpa [hw] using hbare
      rw [build_condition_name_wildcard q n i hqn hw hne, hrest, Bool.and_false]
    · have hw' : (starts_with_star n || ends_with_star n) = false := by
        revert hw; cases (starts_with_star n || ends_with_star n) <;> simp
      rw [build_condition_name_exact q n i hqn hw', hrest, Bool.and_false]

/-- Witness for C8 (amended): an empty category set rejects a published
icon. -/
theorem c8_witness :
    build_condition_from_params { IconQuery.empty with category := some [] } cubeIcon = false :=
  c8_empty_set_matches_nothing { IconQuery.empty with category := some [] } cubeIcon
    rfl (Or.inr (Or.inl rfl))

/-- Counterexample to C8 as stated: the filter with an empty status set
rejects the published icon `cube`, while the same filter with the status
set absent accepts it — the two predicates are NOT satisfied by the same
icons. -/
theorem c8_counterexample :
    build_condition_from_params { IconQuery.empty with status := some [] } cubeIcon = false
    ∧ build_condition_from_params IconQuery.empty cubeIcon = true := by
  constructor <;> decide

/-! ## Claim C7: the version range parser -/

theorem string_mk_toList (s : String) : String.mk s.toList = s := rfl

theorem string_toList_append (x y : String) : (x ++ y).toList = x.toList ++ y.toList :=
  String.data_append x y

theorem toList_isEmpty_false (s : String) (h : s ≠ "") : s.toList.isEmpty = false := by
  cases hl : s.toList with
  | nil => exact absurd (by rw [← string_mk_toList s, hl]) h
  | cons c cs => rfl

theorem invalid_number_msg_cases (token msg : String)
    (h : msg = "Invalid number: " ++ parseFloatErrorMsg token) :
    msg = "Invalid number: cannot parse float from empty string"
    ∨ msg = "Invalid number: invalid float literal" := by
  unfold parseFloatErrorMsg at h
  by_cases ht : token = ""
  · rw [if_pos ht] at h
    left
    rw [h]
    decide
  · rw [if_neg ht] at h
    right
    rw [h]
    decide

/-- Claim C7 (amended): the range parser is a total deterministic function;
`a..b` parses to `Range(a,b)` provided the token `a` contains no `..` and
does not end in `.` (otherwise the first-occurrence split of `split_once`
cuts inside `a`, as the counterexample shows); `..b` always parses to
`LessThanOrEqual(b)`; `a..` (same proviso on `a`) parses to
`GreaterThanOrEqual(a)`; a numeric token without `..` parses to
`Exact`; and every failure message is `Invalid number: ` followed by one
of the two `ParseFloatError` texts — `cannot parse float from empty
string` when the failing token is empty (as at the inputs `""` and
`".."`), `invalid float literal` otherwise — so the error never names the
offending token. -/
theorem c7_range_parser_amended :
    (∀ (a b : String) (x y : Rat), ¬ ['.', '.'] <:+: a.toList →
      a.toList.getLast? ≠ some '.' →
      trimChars a.toList = a.toList → trimChars b.toList = b.toList →
      parseF64Fragment a = some x → parseF64Fragment b = some y →
      a ≠ "" → b ≠ "" →
      icon_release_query_from_str (a ++ ".." ++ b) = .ok (.Range x y))
    ∧ (∀ (b : String) (y : Rat), trimChars b.toList = b.toList →
      parseF64Fragment b = some y → b ≠ "" →
      icon_release_query_from_str (".." ++ b) = .ok (.LessThanOrEqual y))
    ∧ (∀ (a : String) (x : Rat), ¬ ['.', '.'] <:+: a.toList →
      a.toList.getLast? ≠ some '.' →
      trimChars a.toList = a.toList → parseF64Fragment a = some x → a ≠ "" →
      icon_release_query_from_str (a ++ "..") = .ok (.GraterThanOrEqual x))
    ∧ (∀ (a : String) (x : Rat), ¬ ['.', '.'] <:+: a.toList →
      parseF64Fragment a = some x →
      icon_release_query_from_str a = .ok (.Exact x))
    ∧ (∀ (s msg : String), icon_release_query_from_str s = .error msg →
      (msg = "Invalid number: cannot parse float from empty string"
        ∨ msg = "Invalid number: invalid float literal"))
    ∧ icon_release_query_from_str ""
        = .error "Invalid number: cannot parse float from empty string"
    ∧ icon_release_query_from_str ".."
        = .error "Invalid number: cannot parse float from empty string" := by
  refine ⟨?_, ?_, ?_, ?_, ?_, rfl, rfl⟩
  · intro a b x y h1 h2 hta htb hpa hpb hane hbne
    have hlist : (a ++ ".." ++ b).toList = a.toList ++ '.' :: '.' :: b.toList := by
      rw [string_toList_append, string_toList_append]
      simp
    have hsplit := splitOnce_dots_append a.toList b.toList
      (not_dots_infix_append_dot a.toList h1 h2)
    have hca : ¬((trimChars a.toList).isEmpty = true) := by
      rw [hta, toList_isEmpty_false a hane]
      decide
    have hcb : ¬((trimChars b.toList).isEmpty = true) := by
      rw [htb, toList_isEmpty_false b hbne]
      decide
    unfold icon_release_query_from_str
    rw [hlist, hsplit]
    dsimp only
    rw [if_neg hca, if_neg hcb, hta, htb, string_mk_toList a, string_mk_toList b, hpa, hpb]
  · intro b y htb hpb hbne
    have hlist : (".." ++ b).toList = '.' :: '.' :: b.toList := by
      rw [string_toList_append]
      rfl
    have hsplit : splitOnceList ['.', '.'] ('.' :: '.' :: b.toList) = some ([], b.toList) := by
      simpa using splitOnce_dots_append [] b.toList (by decide)
    unfold icon_release_query_from_str
    rw [hlist, hsplit]
    dsimp only
    rw [if_pos (show (trimChars ([] : List Char)).isEmpty = true from rfl),
      htb, string_mk_toList b, hpb]
  · intro a x h1 h2 hta hpa hane
    have hlist : (a ++ "..").toList = a.toList ++ '.' :: '.' :: [] := by
      rw [string_toList_append]
      rfl
    have hsplit := splitOnce_dots_append a.toList []
      (not_dots_infix_append_dot a.toList h1 h2)
    have hca : ¬((trimChars a.toList).isEmpty = true) := by
      rw [hta, toList_isEmpty_false a hane]
      decide
    unfold icon_release_query_from_str
    rw [hlist, hsplit]
    dsimp only
    rw [if_neg hca, if_pos (show (trimChars ([] : List Char)).isEmpty = true from rfl),
      hta, string_mk_toList a, hpa]
  · intro a x h1 hpa
    have hsplit := splitOnceList_none ['.', '.'] a.toList h1
    unfold icon_release_query_from_str
    rw [hsplit]
    dsimp only
    rw [hpa]
  · intro s msg h
    unfold icon_release_query_from_str at h
    cases hsp : splitOnceList ['.', '.'] s.toList with
    | none =>
      rw [hsp] at h
      dsimp only at h
      cases hp : parseF64Fragment s with
      | none =>
        rw [hp] at h
        exact invalid_number_msg_cases s msg (Except.error.inj h).symm
      | some v => rw [hp] at h; cases h
    | some ab =>
      obtain ⟨a, b⟩ := ab
      rw [hsp] at h
      dsimp only at h
      by_cases hia : (trimChars a).isEmpty = true
      · rw [if_pos hia] at h
        cases hp : parseF64Fragment (String.mk (trimChars b)) with
        | none =>
          rw [hp] at h
          exact invalid_number_msg_cases (String.mk (trimChars b)) msg (Except.error.inj h).symm
        | some v => rw [hp] at h; cases h
      · rw [if_neg hia] at h
        by_cases hib : (trimChars b).isEmpty = true
        · rw [if_pos hib] at h
          cases hp : parseF64Fragment (String.mk (trimChars a)) with
          | none =>
            rw [hp] at h
            exact invalid_number_msg_cases (String.mk (trimChars a)) msg (Except.error.inj h).symm
          | some v => rw [hp] at h; cases h
        · rw [if_neg hib] at h
          cases hp1 : parseF64Fragment (String.mk (trimChars a)) with
          | none =>
            rw [hp1] at h
            exact invalid_number_msg_cases (String.mk (trimChars a)) msg (Except.error.inj h).symm
          | some v =>
            rw [hp1] at h
            cases hp2 : parseF64Fragment (String.mk (trimChars b)) with
            | none =>
              rw [hp2] at h
              exact invalid_number_msg_cases (String.mk (trimChars b)) msg (Except.error.inj h).symm
            | some w => rw [hp2] at h; cases h

/-- Witness for C7 (amended): `1..2` parses to the inclusive range. -/
theorem c7_witness : icon_release_query_from_str ("1" ++ ".." ++ "2") = .ok (.Range 1 2) :=
  c7_range_parser_amended.1 "1" "2" 1 2 (by decide) (by decide) (by decide) (by decide)
    (by decide) (by decide) (by decide) (by decide)

/-- Counterexample to C7 as stated: `a = "1."` and `b = "5"` are both
numeric tokens (they parse as 1 and 5), yet the input `a..b = "1...5"` does
NOT parse to `Range(1, 5)`: `split_once` cuts at the FIRST `..`, leaving
`("1", ".5")`, so the parser returns `Range(1, 1/2)`. -/
theorem c7_counterexample :
    icon_release_query_from_str "1...5" = .ok (.Range 1 (1 / 2))
    ∧ parseF64Fragment "1." = some 1
    ∧ parseF64Fragment "5" = some 5
    ∧ ("1." ++ ".." ++ "5") = "1...5"
    ∧ (IconReleaseQuery.Range 1 (1 / 2)) ≠ (IconReleaseQuery.Range 1 5) := by
  have d0 : digitsToNat ([] : List Char) = 0 := rfl
  have d1 : digitsToNat ['1'] = 1 := by decide
  have d5 : digitsToNat ['5'] = 5 := by decide
  refine ⟨?_, ?_, by decide, by decide, ?_⟩
  · have hres : icon_release_query_from_str "1...5"
        = .ok (.Range ((digitsToNat ['1'] : Rat))
            ((digitsToNat ([] : List Char) : Rat) + (digitsToNat ['5'] : Rat) / 10 ^ 1)) := rfl
    rw [hres, d0, d1, d5]
    simp only [Except.ok.injEq, IconReleaseQuery.Range.injEq]
    constructor <;> norm_num
  · have hres : parseF64Fragment "1."
        = some ((digitsToNat ['1'] : Rat) + (digitsToNat ([] : List Char) : Rat) / 10 ^ 0) := rfl
    rw [hres, d0, d1]
    simp only [Option.some.injEq]
    norm_num
  · simp only [ne_eq, IconReleaseQuery.Range.injEq, not_and]
    intro _
    norm_num

/-! ## Claim C4: rejection of rows without rid/name -/

/-- Claim C4 (amended): a row whose `RID` or `Name` cell is absent or not a
string makes `TryFrom<Row> for Icon` return the descriptive errors
`Missing RID` / `Missing Name` — but `TableClient::sync` calls `.unwrap()`
on every row, so one undecodable row panics and aborts the ENTIRE batch:
the bad row is not merely excluded, and the remaining rows are not
processed. -/
theorem c4_required_fields_abort_batch :
    (∀ row : Row, (row_get row "RID").bind as_string = none →
      icon_try_from row = .error (.ParseError "Missing RID"))
    ∧ (∀ (row : Row) (rid : String), (row_get row "RID").bind as_string = some rid →
      (row_get row "Name").bind as_string = none →
      icon_try_from row = .error (.ParseError "Missing Name"))
    ∧ (∀ (rows : List Row) (row : Row), row ∈ rows →
      (icon_try_from row).isOk = false → sync_decode_rows rows = none) := by
  refine ⟨?_, ?_, ?_⟩
  · intro row h
    simp only [icon_try_from, TableColumn.as_str, h]
  · intro row rid hrid h
    simp only [icon_try_from, TableColumn.as_str, hrid, h]
  · intro rows
    induction rows with
    | nil => intro row h; cases h
    | cons r rest ih =>
      intro row hmem hbad
      rcases List.mem_cons.mp hmem with rfl | hmem2
      · cases htf : icon_try_from row with
        | error e => simp [sync_decode_rows, htf]
        | ok v => rw [htf] at hbad; cases hbad
      · cases htf : icon_try_from r with
        | error e => simp [sync_decode_rows, htf]
        | ok v => simp [sync_decode_rows, htf, ih row hmem2 hbad]

/-- Witness for C4 (amended): a batch led by the undecodable row crashes
the whole sync pass. -/
theorem c4_witness : sync_decode_rows [badRow, goodRow] = none :=
  c4_required_fields_abort_batch.2.2 [badRow, goodRow] badRow
    (List.mem_cons_self badRow [goodRow]) (by decide)

/-- Counterexample to C4 as stated: the row with no `RID` cell is rejected
with the descriptive error, but decoding of the batch containing it yields
NO result at all (the sync loop panics) instead of the remaining rows. -/
theorem c4_counterexample :
    icon_try_from badRow = .error (.ParseError "Missing RID")
    ∧ sync_decode_rows [goodRow, badRow] = none
    ∧ (sync_decode_rows [goodRow, badRow]).isSome = false := by
  refine ⟨rfl, by decide, by decide⟩

/-! ## Claim C5: decoding the published field -/

/-- Claim C5 (amended): `as_bool` never errors, but it recognizes ONLY
bool-kind cells: it is `true` exactly on a boolean cell holding `true`; a
string cell — including `"Y"` — yields `false`, with no warning logged
(there is no logging in this decoder), and an absent `Published` cell
decodes to `false`. -/
theorem c5_published_decoding :
    (∀ v : PValue, as_bool v = true ↔ v = some (.boolValue true))
    ∧ (∀ row : Row, row_get row "Published" = none → decode_published row = false)
    ∧ (∀ (row : Row) (str : String),
      row_get row "Published" = some (some (.stringValue str)) →
      decode_published row = false) := by
  refine ⟨?_, ?_, ?_⟩
  · intro v
    match v with
    | none => simp [as_bool]
    | some .nullValue => simp [as_bool]
    | some (.numberValue n) => simp [as_bool]
    | some (.stringValue str) => simp [as_bool]
    | some (.boolValue b) => cases b <;> simp [as_bool]
    | some .structValue => simp [as_bool]
    | some (.listValue vs) => simp [as_bool]
  · intro row h
    simp only [decode_published, TableColumn.as_str, h, Option.map_none', Option.getD_none]
  · intro row str h
    simp only [decode_published, TableColumn.as_str, h, Option.map_some', Option.getD_some,
      as_bool]

/-- Witness for C5 (amended): a true boolean cell decodes to `true`; an
absent cell and an `"N"` string cell decode to `false`. -/
theorem c5_witness :
    as_bool (some (.boolValue true)) = true
    ∧ decode_published ⟨[]⟩ = false
    ∧ decode_published ⟨[("Published", some (.stringValue "N"))]⟩ = false :=
  ⟨(c5_published_decoding.1 (some (.boolValue true))).mpr rfl,
    c5_published_decoding.2.1 ⟨[]⟩ rfl,
    c5_published_decoding.2.2 ⟨[("Published", some (.stringValue "N"))]⟩ "N" rfl⟩

/-- Counterexample to C5 as stated: a string cell `"Y"` — which the claim
says must decode to `true` — decodes to `false`. -/
theorem c5_counterexample :
    decode_published publishedYRow = false
    ∧ decode_published publishedYRow ≠ true := by
  refine ⟨by decide, by decide⟩

/-! ## Claim C6: multi-valued cell decoding -/

/-- Claim C6 (amended): the two multi-valued decoders are NOT symmetric.
`as_string_array` (tags) handles both kinds: a string cell is split on the
literal `", "` (each segment trimmed), a list cell keeps its string
elements.  `as_search_categories` decodes ONLY list-kind cells (string
elements mapped through the serde parse of `Category`); a string-kind cell
yields the empty category list rather than being split. -/
theorem c6_multivalued_decoding :
    (∀ parts : List (List Char), parts ≠ [] →
      (∀ p ∈ parts, ¬ [',', ' '] <:+: (p ++ [','])) →
      as_string_array (some (.stringValue (String.mk (List.intercalate [',', ' '] parts))))
        = parts.map fun cs => String.mk (trimChars cs))
    ∧ (∀ vs, as_string_array (some (.listValue vs))
        = vs.filterMap fun v =>
            match v with
            | some (.stringValue str) => some str
            | _ => none)
    ∧ (∀ vs, as_search_categories (some (.listValue vs))
        = vs.filterMap fun v =>
            match v with
            | some (.stringValue str) => some (Category.from_serde_str str)
            | _ => none)
    ∧ (∀ str, as_search_categories (some (.stringValue str)) = []) := by
  refine ⟨?_, fun vs => rfl, fun vs => rfl, fun str => rfl⟩
  intro parts hne hp
  show (split_comma_space []
      (String.mk (List.intercalate [',', ' '] parts)).toList).map
      (fun cs => String.mk (trimChars cs)) = parts.map fun cs => String.mk (trimChars cs)
  rw [show (String.mk (List.intercalate [',', ' '] parts)).toList
      = List.intercalate [',', ' '] parts from rfl]
  rw [split_comma_space_intercalate parts hne hp]

/-- Witness for C6 (amended): a two-segment tags string cell splits into
its two values. -/
theorem c6_witness : as_string_array (some (.stringValue "a, b")) = ["a", "b"] := by
  have h := c6_multivalued_decoding.1 [['a'], ['b']] (by decide) (by decide)
  exact h

/-- Counterexample to C6 as stated: a string-kind `Search Categories` cell
is NOT split on `", "` — it decodes to the empty list, not to the two
categories named in it. -/
theorem c6_counterexample :
    as_search_categories (some (.stringValue "Arrows, Games")) = []
    ∧ ([] : List Category) ≠ [Category.Arrows, Category.Games] :=
  ⟨rfl, by decide⟩

/-! ## Claim C9: upsert keyed by rid -/

theorem upsert_icon_update_eq (st : IconStore) (i : IconsModel)
    (h : st.rows.any (fun r => r.rid == i.rid) = true) :
    upsert_icon st i = { st with rows := st.rows.map fun r =>
      if r.rid == i.rid then apply_update_columns r i else r } := by
  unfold upsert_icon
  rw [if_pos h]

theorem upsert_icon_insert_eq (st : IconStore) (i : IconsModel)
    (h : st.rows.any (fun r => r.rid == i.rid) = false) :
    upsert_icon st i
      = { rows := st.rows ++ [{ i with id := st.nextId }], nextId := st.nextId + 1 } := by
  unfold upsert_icon
  rw [if_neg (by simp [h])]

theorem countP_rid_eq_one {l : List IconsModel}
    (hn : (l.map fun r => r.rid).Nodup) {rid : String}
    (hk : ∃ r ∈ l, r.rid = rid) :
    (l.countP fun r => r.rid == rid) = 1 := by
  induction l with
  | nil => rcases hk with ⟨r, hr, _⟩; cases hr
  | cons x l ih =>
    rw [List.map_cons, List.nodup_cons] at hn
    by_cases hx : x.rid = rid
    · have h0 : (l.countP fun r => r.rid == rid) = 0 := by
        rw [List.countP_eq_zero]
        intro r hr
        simp only [beq_iff_eq]
        intro heq
        exact hn.1 (hx ▸ heq ▸ List.mem_map_of_mem (fun r => r.rid) hr)
      simp [List.countP_cons, hx, h0]
    · rcases hk with ⟨r, hr, hrid⟩
      rcases List.mem_cons.mp hr with rfl | hmem
      · exact absurd hrid hx
      · have := ih hn.2 ⟨r, hmem, hrid⟩
        simp [List.countP_cons, hx, this]

/-- Claim C9 (confirmed): `upsert_icon` keyed by the unique `rid` preserves
one-row-per-rid, applying it twice equals applying it once, after the
upsert exactly one stored row carries the record's `rid`, that row carries
all twelve updated business-field values of the record, and an update never
changes the stored `id`. -/
theorem c9_upsert_rid_invariant (s : IconStore) (i : IconsModel)
    (hn : (s.rows.map fun r => r.rid).Nodup) :
    ((upsert_icon s i).rows.map fun r => r.rid).Nodup
    ∧ upsert_icon (upsert_icon s i) i = upsert_icon s i
    ∧ ((upsert_icon s i).rows.countP fun r => r.rid == i.rid) = 1
    ∧ (∀ r ∈ (upsert_icon s i).rows, r.rid = i.rid →
        (r.name = i.name ∧ r.status = i.status ∧ r.category = i.category
          ∧ r.search_categories = i.search_categories ∧ r.tags = i.tags
          ∧ r.notes = i.notes ∧ r.released_at = i.released_at
          ∧ r.last_updated_at = i.last_updated_at ∧ r.deprecated_at = i.deprecated_at
          ∧ r.published = i.published ∧ r.«alias» = i.«alias» ∧ r.code = i.code))
    ∧ (∀ r ∈ s.rows, r.rid = i.rid →
        ∀ r2 ∈ (upsert_icon s i).rows, r2.rid = i.rid → r2.id = r.id) := by
  by_cases hc : s.rows.any (fun r => r.rid == i.rid) = true
  · -- conflict: the update path
    have hup := upsert_icon_update_eq s i hc
    have hrid : ∀ r : IconsModel,
        (if r.rid == i.rid then apply_update_columns r i else r).rid = r.rid := by
      intro r
      by_cases hr : (r.rid == i.rid) = true
      · rw [if_pos hr]; rfl
      · rw [if_neg hr]
    have hfix : ∀ r : IconsModel,
        (fun r => if r.rid == i.rid then apply_update_columns r i else r)
          ((fun r => if r.rid == i.rid then apply_update_columns r i else r) r)
        = (fun r => if r.rid == i.rid then apply_update_columns r i else r) r := by
      intro r
      by_cases hr : (r.rid == i.rid) = true
      · simp only [if_pos hr]
        have hr2 : ((apply_update_columns r i).rid == i.rid) = true := hr
        simp only [if_pos hr2]
        rfl
      · simp only [if_neg hr]
    have hmap : ((upsert_icon s i).rows.map fun r => r.rid) = s.rows.map fun r => r.rid := by
      rw [hup]
      dsimp only
      rw [List.map_map]
      exact List.map_congr_left fun r _ => hrid r
    refine ⟨?_, ?_, ?_, ?_, ?_⟩
    · rw [hmap]; exact hn
    · have hc2 : (upsert_icon s i).rows.any (fun r => r.rid == i.rid) = true := by
        rw [List.any_eq_true] at hc ⊢
        rcases hc with ⟨r, hr, hpr⟩
        refine ⟨if r.rid == i.rid then apply_update_columns r i else r, ?_, ?_⟩
        · rw [hup]
          exact List.mem_map_of_mem _ hr
        · rw [hrid r]; exact hpr
      rw [upsert_icon_update_eq (upsert_icon s i) i hc2, hup]
      dsimp only
      congr 1
      rw [List.map_map]
      exact List.map_congr_left fun r _ => hfix r
    · rw [hup]
      dsimp only
      rw [List.countP_map]
      have heq : (s.rows.countP
          ((fun r => r.rid == i.rid)
            ∘ fun r => if r.rid == i.rid then apply_update_columns r i else r))
          = s.rows.countP fun r => r.rid == i.rid := by
        apply List.countP_congr
        intro r _
        simp only [Function.comp_apply, hrid r]
      rw [heq]
      rcases List.any_eq_true.mp hc with ⟨r, hr, hpr⟩
      exact countP_rid_eq_one hn ⟨r, hr, beq_iff_eq.mp hpr⟩
    · intro r hr hrid2
      rw [hup] at hr
      dsimp only at hr
      rcases List.mem_map.mp hr with ⟨r0, hr0, rfl⟩
      by_cases h0 : (r0.rid == i.rid) = true
      · rw [if_pos h0]
        simp [apply_update_columns]
      · rw [if_neg h0] at hrid2
        exact absurd (beq_iff_eq.mpr hrid2) h0
    · intro r hr hre r2 hr2 hre2
      rw [hup] at hr2
      dsimp only at hr2
      rcases List.mem_map.mp hr2 with ⟨r0, hr0, rfl⟩
      by_cases h0 : (r0.rid == i.rid) = true
      · have hsame : r0 = r :=
          List.inj_on_of_nodup_map hn hr0 hr (by rw [beq_iff_eq.mp h0, hre])
        subst hsame
        simp only [if_pos h0, apply_update_columns]
      · rw [if_neg h0] at hre2
        exact absurd (beq_iff_eq.mpr hre2) h0
  · -- no conflict: the insert path
    have hc' : s.rows.any (fun r => r.rid == i.rid) = false := by
      revert hc; cases s.rows.any (fun r => r.rid == i.rid) <;> simp
    have hnone : ∀ r ∈ s.rows, r.rid ≠ i.rid := by
      intro r hr heq
      have hfalse := List.any_eq_false.mp hc' r hr
      exact hfalse (beq_iff_eq.mpr heq)
    have hup := upsert_icon_insert_eq s i hc'
    have hii : ({ i with id := s.nextId } : IconsModel).rid = i.rid := rfl
    refine ⟨?_, ?_, ?_, ?_, ?_⟩
    · rw [hup]
      dsimp only
      rw [List.map_append, List.nodup_append]
      refine ⟨hn, by simp, ?_⟩
      intro a ha hb
      simp only [List.map_cons, List.map_nil, List.mem_singleton] at hb
      rcases List.mem_map.mp ha with ⟨r, hr, rfl⟩
      exact hnone r hr hb
    · have hc2 : (upsert_icon s i).rows.any (fun r => r.rid == i.rid) = true := by
        rw [hup]
        dsimp only
        rw [List.any_append]
        have : (([{ i with id := s.nextId }] : List IconsModel).any
            fun r => r.rid == i.rid) = true := by
          simp [hii]
        rw [this, Bool.or_true]
      rw [upsert_icon_update_eq (upsert_icon s i) i hc2, hup]
      dsimp only
      congr 1
      rw [List.map_append]
      have hgen : ∀ l : List IconsModel, (∀ r ∈ l, r.rid ≠ i.rid) →
          (l.map fun r => if r.rid == i.rid then apply_update_columns r i else r) = l := by
        intro l
        induction l with
        | nil => intro _; rfl
        | cons x xs ihl =>
          intro hall
          simp only [List.map_cons]
          rw [if_neg (fun hbeq => hall x (List.mem_cons_self x xs) (beq_iff_eq.mp hbeq)),
            ihl (fun r hr => hall r (List.mem_cons_of_mem x hr))]
      have h1 := hgen s.rows hnone
      have h2 : (([{ i with id := s.nextId }] : List IconsModel).map fun r =>
          if r.rid == i.rid then apply_update_columns r i else r)
          = [{ i with id := s.nextId }] := by
        simp only [List.map_cons, List.map_nil]
        rw [if_pos (beq_iff_eq.mpr hii)]
        rfl
      rw [h1, h2]
    · rw [hup]
      dsimp only
      rw [List.countP_append]
      have h0 : (s.rows.countP fun r => r.rid == i.rid) = 0 := by
        rw [List.countP_eq_zero]
        intro r hr
        intro hbeq
        exact hnone r hr (beq_iff_eq.mp hbeq)
      have h1 : (([{ i with id := s.nextId }] : List IconsModel).countP
          fun r => r.rid == i.rid) = 1 := by
        simp [List.countP_cons, hii]
      rw [h0, h1]
    · intro r hr hrid2
      rw [hup] at hr
      dsimp only at hr
      rcases List.mem_append.mp hr with hmem | hmem
      · exact absurd hrid2 (hnone r hmem)
      · rcases List.mem_cons.mp hmem with rfl | hx
        · exact ⟨rfl, rfl, rfl, rfl, rfl, rfl, rfl, rfl, rfl, rfl, rfl, rfl⟩
        · cases hx
    · intro r hr hre r2 hr2 hre2
      exact absurd hre (hnone r hr)

/-- Witness for C9: updating the stored `cube` row by rid leaves exactly
one row for that rid. -/
theorem c9_witness :
    ((upsert_icon ⟨[cubeIcon], 10⟩
        { cubeIcon with name := "cube-two", published := false }).rows.countP
      fun r => r.rid == ({ cubeIcon with name := "cube-two", published := false } :
        IconsModel).rid) = 1 :=
  (c9_upsert_rid_invariant ⟨[cubeIcon], 10⟩
    { cubeIcon with name := "cube-two", published := false } (by decide)).2.2.1

/-! ## Claim C10: unrecognized stored svg weights -/

/-- Claim C10 (confirmed): converting a stored svg row whose weight string
is not one of the six lowercase labels never errors — `unwrap_or_default`
silently yields the `Regular` weight — and the other fields are carried
over unchanged. -/
theorem c10_unknown_weight_defaults_regular (m : SvgsModel)
    (h : m.weight ∉ (["thin", "light", "regular", "bold", "fill", "duotone"] : List String)) :
    (svg_from_model m).weight = IconWeight.Regular
    ∧ (svg_from_model m).id = m.id
    ∧ (svg_from_model m).icon_id = m.icon_id
    ∧ (svg_from_model m).src = m.src := by
  simp only [List.mem_cons, List.mem_singleton, not_or] at h
  obtain ⟨h1, h2, h3, h4, h5, h6, -⟩ := h
  unfold svg_from_model IconWeight.from_str
  rw [if_neg h1, if_neg h2, if_neg h3, if_neg h4, if_neg h5, if_neg h6]
  exact ⟨rfl, rfl, rfl, rfl⟩

/-- Witness for C10: the weight label `Bold` (wrong case) is not
recognized and converts to `Regular`, with id, icon id and source kept. -/
theorem c10_witness :
    (svg_from_model ⟨7, 3, "Bold", "<svg/>"⟩).weight = IconWeight.Regular
    ∧ (svg_from_model ⟨7, 3, "Bold", "<svg/>"⟩).id = 7
    ∧ (svg_from_model ⟨7, 3, "Bold", "<svg/>"⟩).icon_id = 3
    ∧ (svg_from_model ⟨7, 3, "Bold", "<svg/>"⟩).src = "<svg/>" :=
  c10_unknown_weight_defaults_regular ⟨7, 3, "Bold", "<svg/>"⟩ (by decide)

end PhosphorServer
